import Mathlib

/-
Verification development for the secure-session banking service.

The development shallowly embeds two source units:
  * the `securelib` cryptographic module (secureHash, createMIC, micMatch,
    cipherData, decipherData, encryptAsymmetricData, decryptAsymmetricData,
    generateSymmetricKey, generateAsymmetricKeys, protect, protectAsymmetric,
    check, unprotect, unprotectAsymmetric);
  * the `ClientService` of the server (constructor with key generation and
    key export, the `login` handshake, and the `checkSessions` prune sweep).

The Node `crypto` primitives the code composes are external library calls,
so they are modelled symbolically: every primitive output is a constructor
of the `Data` type (a Dolev-Yao style term algebra).  Randomness (nonces,
keys, key pairs) is threaded as explicit arguments, persistent stores and
caches as explicit state records, thrown exceptions as `Except` errors.
-/

namespace SecureLib

/-- Runtime JavaScript values and byte strings flowing through the
cryptographic layer.  Objects are encoded as cons-cells (`objCons` /
`objNil`) preserving property insertion order, which is the order
`JSON.stringify` serializes them in.  `stringify d` is the string
`JSON.stringify` produces for `d`; `sha256 d` is the base64 SHA-256 digest
of `d`; `aesEnc`/`rsaEnc` are AES-256-CBC and RSA-OAEP ciphertexts (base64);
`randomBytes seed` is the output of `crypto.randomBytes` for an explicit
randomness seed; `pubPem`/`privPem` are the exported PEM encodings of the
key pair identified by `keyId`.  `undef` is the JavaScript value
`undefined`, the result of reading an absent object property. -/
inductive Data where
  | str (s : String)
  | undef
  | objNil
  | objCons (key : String) (value : Data) (rest : Data)
  | stringify (d : Data)
  | sha256 (d : Data)
  | aesEnc (key nonce plain : Data)
  | rsaEnc (pubId : Nat) (plain : Data)
  | randomBytes (seed : Nat)
  | pubPem (keyId : Nat)
  | privPem (keyId : Nat)
deriving DecidableEq, Repr

/-- Tests whether a value is the JavaScript `undefined`. -/
def Data.isUndef : Data → Bool
  | .undef => true
  | _ => false

/-- Builds a JavaScript object literal from its fields, in insertion order. -/
def mkObj (fields : List (String × Data)) : Data :=
  fields.foldr (fun p r => Data.objCons p.1 p.2 r) Data.objNil

/-- JSON.stringify omits object properties whose value is `undefined`;
this normalization applies that rule at every depth. -/
def dropUndef : Data → Data
  | .str s => .str s
  | .undef => .undef
  | .objNil => .objNil
  | .objCons k v rest =>
    if v.isUndef then dropUndef rest
    else .objCons k (dropUndef v) (dropUndef rest)
  | .stringify d => .stringify d
  | .sha256 d => .sha256 d
  | .aesEnc k n p => .aesEnc k n p
  | .rsaEnc p d => .rsaEnc p d
  | .randomBytes s => .randomBytes s
  | .pubPem k => .pubPem k
  | .privPem k => .privPem k

/-- The string `JSON.stringify(d)`. -/
def jsonStringify (d : Data) : Data :=
  .stringify (dropUndef d)

/-- The value `JSON.parse(s)`; `none` models the exception thrown on a
string that is not valid JSON output. -/
def jsonParse : Data → Option Data
  | .stringify d => some d
  | _ => none

/-- A payload survives JSON serialization unchanged exactly when it holds
no `undefined`-valued properties. -/
def serializable (d : Data) : Bool :=
  decide (dropUndef d = d)

/-- Interface `CipherResult` of securelib: the two transmitted outputs of
symmetric encryption, in the property order `data`, `nonce` used by
`cipherData`. -/
structure CipherResult where
  data : Data
  nonce : Data
deriving DecidableEq, Repr

/-- The `CipherResult` viewed as the JavaScript object `{ data, nonce }`. -/
def CipherResult.toData (c : CipherResult) : Data :=
  mkObj [("data", c.data), ("nonce", c.nonce)]

/-- Interface `ProtectedData` of securelib: the envelope crossing the wire. -/
structure ProtectedData where
  mic : Data
  nonce : Data
  data : Data
deriving DecidableEq, Repr

/-- Function `secureHash` of securelib: base64 SHA-256 over
`JSON.stringify(data)`. -/
def secureHash (data : Data) : Data :=
  .sha256 (jsonStringify data)

/-- Function `createMIC` of securelib: `secureHash(JSON.stringify(c))`.
The TypeScript parameter is typed `CipherResult`, but at runtime the
server also passes other object shapes, so the model takes the raw value. -/
def createMIC (cipheredData : Data) : Data :=
  secureHash (jsonStringify cipheredData)

/-- Function `micMatch` of securelib: strict equality of the recomputed
tag with the received one. -/
def micMatch (mic : Data) (cipheredData : Data) : Bool :=
  decide (createMIC cipheredData = mic)

/-- Function `cipherData` of securelib.  The fresh 16-byte nonce drawn
from `crypto.randomBytes` inside the function is passed explicitly. -/
def cipherData (data : Data) (secret : Data) (nonce : Data) : CipherResult :=
  { data := .aesEnc secret nonce (jsonStringify data), nonce := nonce }

/-- Function `decipherData` of securelib: AES-256-CBC decryption with the
envelope nonce as IV followed by `JSON.parse`; a wrong key, wrong IV, or
malformed ciphertext throws, modelled as `none`. -/
def decipherData (cipheredData : ProtectedData) (secret : Data) : Option Data :=
  match cipheredData.data with
  | .aesEnc k n p =>
    if k = secret ∧ n = cipheredData.nonce then jsonParse p else none
  | _ => none

/-- Function `encryptAsymmetricData` of securelib: RSA-OAEP encryption of
`JSON.stringify(data)` under the public key. -/
def encryptAsymmetricData (data : Data) (publicKey : Nat) : Data :=
  .rsaEnc publicKey (jsonStringify data)

/-- Function `decryptAsymmetricData` of securelib: RSA-OAEP decryption of
the envelope `data` field with the private key, then `JSON.parse`; any
fault throws, modelled as `none`. -/
def decryptAsymmetricData (cipheredData : ProtectedData) (privateKey : Nat) :
    Option Data :=
  match cipheredData.data with
  | .rsaEnc pid p => if pid = privateKey then jsonParse p else none
  | _ => none

/-- Function `generateSymmetricKey` of securelib: a secret key over 32
fresh random bytes, with the randomness seed explicit. -/
def generateSymmetricKey (seed : Nat) : Data :=
  .randomBytes seed

/-- Interface `AsymmetricKeys` of securelib; a pair generated together
shares its `keyId`, and decryption succeeds exactly for the matching half. -/
structure AsymmetricKeys where
  publicKey : Nat
  privateKey : Nat
deriving DecidableEq, Repr

/-- Function `generateAsymmetricKeys` of securelib: one fresh RSA-2048
pair, with the generation randomness explicit. -/
def generateAsymmetricKeys (seed : Nat) : AsymmetricKeys :=
  { publicKey := seed, privateKey := seed }

/-- Typed errors thrown by the opening functions of securelib:
`integrityError` is `Error("Failed to decipher: compromised data!")`,
`decryptionError` any decryption or parse fault. -/
inductive SecError where
  | integrityError
  | decryptionError
deriving DecidableEq, Repr

/-- Function `protect` of securelib: symmetric seal.  (The null test on
the cipher result in the source is dead code: `cipherData` always returns
an object.) -/
def protect (data : Data) (secret : Data) (nonce : Data) : ProtectedData :=
  let cipheredData := cipherData data secret nonce
  { mic := createMIC cipheredData.toData
  , nonce := cipheredData.nonce
  , data := cipheredData.data }

/-- Return shape of `protectAsymmetric`: the object `{ mic, data }`,
carrying no `nonce` property. -/
structure AsymEnvelope where
  mic : Data
  data : Data
deriving DecidableEq, Repr

/-- Function `protectAsymmetric` of securelib: asymmetric seal; the tag is
`secureHash(JSON.stringify(cipheredData))` over the bare ciphertext
string. -/
def protectAsymmetric (data : Data) (secret : Nat) : AsymEnvelope :=
  let cipheredData := encryptAsymmetricData data secret
  { mic := secureHash (jsonStringify cipheredData), data := cipheredData }

/-- An `AsymEnvelope` received where a `ProtectedData` is expected: the
absent `nonce` property reads as `undefined`. -/
def AsymEnvelope.toProtectedData (e : AsymEnvelope) : ProtectedData :=
  { mic := e.mic, nonce := .undef, data := e.data }

/-- Function `check` of securelib: recomputes the tag over the object
`{ data, nonce }` rebuilt from the envelope and compares it to the
received `mic`. -/
def check (data : ProtectedData) : Bool :=
  micMatch data.mic (mkObj [("data", data.data), ("nonce", data.nonce)])

/-- Function `unprotect` of securelib: integrity check first, throwing on
mismatch without touching the cipher, then symmetric decryption. -/
def unprotect (protectedData : ProtectedData) (key : Data) :
    Except SecError Data :=
  if check protectedData then
    match decipherData protectedData key with
    | some d => .ok d
    | none => .error .decryptionError
  else .error .integrityError

/-- Function `unprotectAsymmetric` of securelib: the same integrity check,
then asymmetric decryption with the private key. -/
def unprotectAsymmetric (protectedData : ProtectedData) (key : Nat) :
    Except SecError Data :=
  if check protectedData then
    match decryptAsymmetricData protectedData key with
    | some d => .ok d
    | none => .error .decryptionError
  else .error .integrityError

end SecureLib

namespace ClientService

open SecureLib

/-- A client document as the login path reads it: a Mongo identifier and
the stored password digest (`secureHash` of the password, per the seed
data). -/
structure Client where
  id : String
  password : Data
deriving DecidableEq, Repr

/-- A session document as `login` builds it: key material exported to
base64, the owning client, the claimed client public key, and the ISO
expiry instant.  Time is modelled as an integer count of minutes. -/
structure Session where
  sessionId : String
  sessionKey : Data
  clientId : String
  publicKey : Data
  expire : Int
deriving DecidableEq, Repr

/-- The mutable collaborators of `ClientService`: the nonce cache, the
client collection and the session collection. -/
structure ServerState where
  nonceCache : List Data
  clients : List Client
  sessions : List Session
deriving DecidableEq, Repr

/-- Exceptions escaping `login`: the replay rejection from `checkNonce`,
the Nest HTTP exceptions thrown in the service body, and the uncaught
fault of `createPublicKey` on unusable key material (reached only after
the session is saved). -/
inductive LoginError where
  | replayError
  | badRequest (msg : String)
  | notFound (msg : String)
  | unauthorized (msg : String)
  | internalError
deriving DecidableEq, Repr

/-- The wire shape of a login request: `ProtectedData & { publicKey }`. -/
structure EncodedLoginDto where
  mic : Data
  nonce : Data
  data : Data
  publicKey : Data
deriving DecidableEq, Repr

/-- The `ProtectedData` part of the request, as the securelib functions
receive it. -/
def EncodedLoginDto.toProtectedData (dto : EncodedLoginDto) : ProtectedData :=
  { mic := dto.mic, nonce := dto.nonce, data := dto.data }

/-- The decrypted login payload after class validation. -/
structure LoginDto where
  clientId : String
  password : String
deriving DecidableEq, Repr

/-- Looks up a property of a JavaScript object value. -/
def objLookup : Data → String → Option Data
  | .objCons k v rest, key => if k = key then some v else objLookup rest key
  | _, _ => none

/-- Modelled from the spec: the `LoginDto` class and its
`plainToInstance` / `validateSync` validation live in
`dtos/login.dto.ts`, which is not among the sources.  Per the spec the
step structurally validates the decrypted payload against the shape
`{ clientId: string, password: string }` and rejects violations. -/
def validateLogin (d : Data) : Option LoginDto :=
  match objLookup d "clientId", objLookup d "password" with
  | some (.str cid), some (.str pw) => some { clientId := cid, password := pw }
  | _, _ => none

/-- Node `crypto.createPublicKey` over the transmitted key material:
succeeds only on a valid public-key encoding, otherwise throws. -/
def createPublicKey : Data → Option Nat
  | .pubPem k => some k
  | _ => none

/-- Modelled from the spec: `protectAsymmetricServer` is imported from
securelib but absent from the sources; per spec sections 4.2 and 4.5
(step `ResponseSealed`) it is the asymmetric seal under the remote public
key. -/
def protectAsymmetricServer (data : Data) (publicKey : Nat) : AsymEnvelope :=
  protectAsymmetric data publicKey

/-- The object the service recomputes the integrity tag over in `login`:
property order `nonce`, `data`, `publicKey`, with `data` bound to the
decrypted payload `loginData`. -/
def loginMicPayload (dto : EncodedLoginDto) (loginData : Data) : Data :=
  mkObj [("nonce", dto.nonce), ("data", loginData), ("publicKey", dto.publicKey)]

/-- Follows the spec's words for the integrity step: the tag recomputed
over the transmitted fields (nonce, ciphertext, claimed public key),
independent of what decryption produced.  Stated for comparison with
`loginMicPayload`, which is what the source uses. -/
def loginMicPayloadTransmitted (dto : EncodedLoginDto) : Data :=
  mkObj [("nonce", dto.nonce), ("data", dto.data), ("publicKey", dto.publicKey)]

/-- The wire shape of a successful login response: `{ mic, data }`. -/
structure LoginResponse where
  mic : Data
  data : Data
deriving DecidableEq, Repr

/-- Method `login` of `ClientService`.  The service private key, the
session-key randomness, the Mongo identifier of the new session document
and the current time are explicit arguments.  The nonce cache step is
modelled from the spec: `checkNonce` lives in `src/utils/replayProtect`,
absent from the sources; per spec section 4.3 it atomically tests for and
records the nonce, rejecting a replay.  The returned state carries every
side effect, also on the failing paths. -/
def login (st : ServerState) (dto : EncodedLoginDto) (privateKey : Nat)
    (keySeed : Nat) (sessionId : String) (now : Int) :
    ServerState × Except LoginError LoginResponse :=
  if dto.nonce ∈ st.nonceCache then (st, .error .replayError)
  else
    let st1 : ServerState := { st with nonceCache := dto.nonce :: st.nonceCache }
    match decryptAsymmetricData dto.toProtectedData privateKey with
    | none => (st1, .error (.badRequest "Data decryption fault"))
    | some loginData =>
      if micMatch dto.mic (loginMicPayload dto loginData) then
        match validateLogin loginData with
        | none => (st1, .error (.badRequest "Validation failed"))
        | some loginDto =>
          match st1.clients.find? (fun c => decide (c.id = loginDto.clientId)) with
          | none => (st1, .error (.notFound "Client not found"))
          | some client =>
            if client.password ≠ secureHash (.str loginDto.password) then
              (st1, .error (.unauthorized "Invalid credentials"))
            else
              let sessionKey := generateSymmetricKey keySeed
              let session : Session :=
                { sessionId := sessionId
                , sessionKey := sessionKey
                , clientId := client.id
                , publicKey := dto.publicKey
                , expire := now + 10 }
              let st2 : ServerState := { st1 with sessions := session :: st1.sessions }
              let responseData :=
                mkObj [("sessionId", .str sessionId), ("sessionKey", sessionKey)]
              match createPublicKey dto.publicKey with
              | none => (st2, .error .internalError)
              | some clientPub =>
                let protectedData := protectAsymmetricServer responseData clientPub
                (st2, .ok { mic := protectedData.mic, data := protectedData.data })
      else (st1, .error (.badRequest "Data integrity fault"))

/-- Method `checkSessions` of `ClientService`: collects the identifiers of
the sessions whose expiry instant lies before `now`, then deletes exactly
the documents whose identifier is in that list. -/
def checkSessions (st : ServerState) (now : Int) : ServerState :=
  let sessionsToDelete :=
    (st.sessions.filter (fun s => decide (s.expire < now))).map
      (fun s => s.sessionId)
  { st with
    sessions := st.sessions.filter
      (fun s => !decide (s.sessionId ∈ sessionsToDelete)) }

/-- One `writeFileSync` call of the constructor. -/
structure FileWrite where
  path : String
  content : Data
deriving DecidableEq, Repr

/-- What constructing `ClientService` leaves behind: the private key held
in the service field, and the file writes performed, in order. -/
structure ClientServiceInit where
  privateKey : Nat
  writes : List FileWrite
deriving DecidableEq, Repr

/-- The SPKI PEM export of the public half, as passed to `writeFileSync`. -/
def exportPublicKeyPem (keys : AsymmetricKeys) : Data :=
  .pubPem keys.publicKey

/-- The PKCS8 PEM export of the private half, as passed to
`writeFileSync`. -/
def exportPrivateKeyPem (keys : AsymmetricKeys) : Data :=
  .privPem keys.privateKey

/-- The constructor of `ClientService`: generates the key pair, keeps the
private half in the service field, and exports both halves to files under
`KEYS_PATH`. -/
def clientServiceConstructor (keysPath : String) (seed : Nat) :
    ClientServiceInit :=
  let keys := generateAsymmetricKeys seed
  { privateKey := keys.privateKey
  , writes :=
      [ { path := keysPath ++ "/server_public.pem"
        , content := exportPublicKeyPem keys }
      , { path := keysPath ++ "/server_private.pem"
        , content := exportPrivateKeyPem keys } ] }

end ClientService

namespace Fixtures

open SecureLib ClientService

/-- A concrete 16-byte request nonce. -/
def nonce0 : Data := .randomBytes 7

/-- A concrete client public key, transmitted base64-encoded. -/
def pk0 : Data := .pubPem 5

/-- A well-formed decrypted login payload. -/
def loginData0 : Data :=
  mkObj [("clientId", .str "alice"), ("password", .str "alicepw")]

/-- The payload encrypted under the server public key (key pair 0). -/
def ct0 : Data := encryptAsymmetricData loginData0 0

/-- A login request whose tag follows the source: computed over the
plaintext payload. -/
def dto0 : EncodedLoginDto :=
  { mic := createMIC (mkObj [("nonce", nonce0), ("data", loginData0), ("publicKey", pk0)])
  , nonce := nonce0, data := ct0, publicKey := pk0 }

/-- A login request whose tag follows the spec wording: computed over the
transmitted fields (nonce, ciphertext, claimed public key). -/
def dtoT : EncodedLoginDto :=
  { mic := createMIC (mkObj [("nonce", nonce0), ("data", ct0), ("publicKey", pk0)])
  , nonce := nonce0, data := ct0, publicKey := pk0 }

/-- A server state with empty stores. -/
def stEmpty : ServerState := { nonceCache := [], clients := [], sessions := [] }

/-- A server state knowing client alice with a different password. -/
def stWrongPw : ServerState :=
  { nonceCache := []
  , clients := [{ id := "alice", password := secureHash (.str "bobpw") }]
  , sessions := [] }

/-- An envelope whose tag does not match its fields. -/
def badEnvelope : ProtectedData :=
  { mic := .str "m", nonce := .str "n", data := .str "c" }

/-- A stored session expiring at instant 110 (created at 100). -/
def sessionNine : Session :=
  { sessionId := "sid9", sessionKey := .randomBytes 3, clientId := "alice"
  , publicKey := .pubPem 5, expire := 110 }

/-- A server state holding exactly `sessionNine`. -/
def stNine : ServerState := { nonceCache := [], clients := [], sessions := [sessionNine] }

end Fixtures

open SecureLib ClientService Fixtures

/-- Helper: the symmetric seal always passes its own integrity check,
since `check` recomputes the tag over the same `{ data, nonce }` object
`protect` computed it over. -/
theorem check_protect_eq (d key nonce : Data) : check (protect d key nonce) = true := by
  simp [check, protect, cipherData, CipherResult.toData, micMatch, mkObj]

/-- Claim C10 — seal-then-verify consistency: for every payload `d`, key
`k` and drawn nonce, `check (protect d k nonce) = true`; `check` takes no
key input. -/
theorem check_of_protect (d key nonce : Data) : check (protect d key nonce) = true :=
  check_protect_eq d key nonce

/-- Claim C7 — symmetric round-trip: for every JSON-serializable payload
`d` (one with no `undefined`-valued properties), any key and any drawn
nonce, `unprotect (protect d k n) k = ok d`. -/
theorem unprotect_protect_roundtrip (d key nonce : Data)
    (h : serializable d = true) :
    unprotect (protect d key nonce) key = .ok d := by
  have hd : dropUndef d = d := of_decide_eq_true h
  simp only [unprotect, check_protect_eq, if_true]
  simp [protect, cipherData, decipherData, jsonParse, jsonStringify, hd]

/-- Witness for C7 at a concrete payload, key and nonce. -/
theorem unprotect_protect_roundtrip_witness :
    unprotect (protect loginData0 (.randomBytes 9) (.randomBytes 7)) (.randomBytes 9) =
      .ok loginData0 :=
  unprotect_protect_roundtrip loginData0 (.randomBytes 9) (.randomBytes 7) (by decide)

/-- Claim C8 — symmetric open fails closed: whenever the recomputed tag
differs from `envelope.mic` (`check` is false), `unprotect` returns the
integrity error for every key, so the outcome never depends on
decryption and no plaintext is released on any failure path. -/
theorem unprotect_fails_closed (p : ProtectedData) (key : Data)
    (h : check p = false) :
    unprotect p key = .error .integrityError := by
  simp [unprotect, h]

/-- Witness for C8 at a concrete mismatched envelope. -/
theorem unprotect_fails_closed_witness :
    unprotect badEnvelope (.randomBytes 9) = .error .integrityError :=
  unprotect_fails_closed badEnvelope (.randomBytes 9) (by decide)

/-- Claim C4 — the asymmetric round-trip the spec states never succeeds
in the code: `protectAsymmetric` computes its tag over the bare
ciphertext string and returns no `nonce` property, while
`unprotectAsymmetric` recomputes the tag over the object
`{ data, nonce: undefined }`, so the integrity check rejects every
envelope the seal produces, at the concrete failing input and in
general. -/
theorem unprotectAsymmetric_roundtrip_always_fails :
    unprotectAsymmetric ((protectAsymmetric (.str "x") 0).toProtectedData) 0 =
      .error .integrityError
    ∧ ∀ (d : Data) (pub : Nat),
        unprotectAsymmetric ((protectAsymmetric d pub).toProtectedData) pub =
          .error .integrityError := by
  constructor
  · rfl
  · intro d pub
    simp [unprotectAsymmetric, check, protectAsymmetric, AsymEnvelope.toProtectedData,
      micMatch, createMIC, secureHash, jsonStringify, dropUndef, mkObj,
      encryptAsymmetricData, Data.isUndef]

/-- Helper: a fresh nonce is recorded in the post-state of `login` on
every branch past the replay check. -/
theorem login_records_nonce (st : ServerState) (dto : EncodedLoginDto)
    (pk ks : Nat) (sid : String) (now : Int)
    (h : dto.nonce ∉ st.nonceCache) :
    dto.nonce ∈ (login st dto pk ks sid now).1.nonceCache := by
  simp only [login, if_neg h]
  repeat' split
  all_goals simp

/-- Helper: a replayed nonce is rejected immediately, with no state
change and independently of keys, payload and credentials. -/
theorem login_replay_immediate (st : ServerState) (dto : EncodedLoginDto)
    (pk ks : Nat) (sid : String) (now : Int)
    (h : dto.nonce ∈ st.nonceCache) :
    login st dto pk ks sid now = (st, .error .replayError) := by
  simp only [login, if_pos h]

/-- Claim C5 — replay protection comes first and is not undone: a nonce
already recorded is rejected with the replay error before anything else
(for any keys and state), and after any first submission with a fresh
nonce — whatever its outcome — resubmitting the identical envelope fails
with the replay error. -/
theorem login_replay_protection (st : ServerState) (dto : EncodedLoginDto)
    (pk ks : Nat) (sid : String) (now : Int)
    (pk2 ks2 : Nat) (sid2 : String) (now2 : Int) :
    (dto.nonce ∈ st.nonceCache →
      login st dto pk ks sid now = (st, .error .replayError))
    ∧ (dto.nonce ∉ st.nonceCache →
      (login (login st dto pk ks sid now).1 dto pk2 ks2 sid2 now2).2 =
        .error .replayError) := by
  constructor
  · exact fun h => login_replay_immediate st dto pk ks sid now h
  · intro h
    have hrec := login_records_nonce st dto pk ks sid now h
    rw [login_replay_immediate _ dto pk2 ks2 sid2 now2 hrec]

/-- Witness for C5: the identical request replayed after a first attempt
that itself failed on credentials (no client is stored) is rejected with
the replay error. -/
theorem login_replay_protection_witness :
    (login (login stEmpty dto0 0 3 "sid1" 100).1 dto0 0 3 "sid2" 101).2 =
      .error .replayError :=
  (login_replay_protection stEmpty dto0 0 3 "sid1" 100 0 3 "sid2" 101).2
    (by simp [stEmpty])

/-- Claim C6 — handshake atomicity: on every failure at the replay,
decryption, integrity, validation or credential stages (every error but
the post-save `internalError` of response sealing) the session store is
unchanged and no response envelope exists, and on success exactly one new
session is stored. -/
theorem login_atomic_sessions (st : ServerState) (dto : EncodedLoginDto)
    (pk ks : Nat) (sid : String) (now : Int) :
    (∀ e, (login st dto pk ks sid now).2 = .error e → e ≠ .internalError →
      (login st dto pk ks sid now).1.sessions = st.sessions)
    ∧ (∀ r, (login st dto pk ks sid now).2 = .ok r →
      ∃ s, (login st dto pk ks sid now).1.sessions = s :: st.sessions) := by
  simp only [login]
  split
  · simp
  · repeat' split
    all_goals simp_all

/-- Witness for C6 at a concrete failing login: credentials fail, the
session store stays empty. -/
theorem login_atomic_sessions_witness :
    (login stEmpty dto0 0 3 "sid1" 100).1.sessions = stEmpty.sessions :=
  (login_atomic_sessions stEmpty dto0 0 3 "sid1" 100).1
    (.notFound "Client not found") rfl (by decide)

/-- Counterexample to claim C2 as stated: a request whose tag is exactly
the hash over the transmitted fields (nonce, ciphertext, claimed public
key) — which the claim says must be accepted by the integrity step — is
rejected by `login` with the integrity fault, because the source
recomputes the tag over the decrypted payload instead. -/
theorem login_transmitted_mic_rejected :
    micMatch dtoT.mic (loginMicPayloadTransmitted dtoT) = true
    ∧ (login stEmpty dtoT 0 3 "sid1" 100).2 =
        .error (.badRequest "Data integrity fault") :=
  ⟨by decide, rfl⟩

/-- Claim C2 as amended: past a fresh nonce and successful decryption,
`login` fails with the integrity fault exactly when the received tag does
not match the hash over `{ nonce, data: decrypted payload, publicKey }` —
the check runs after decryption and depends on what decryption
produced. -/
theorem login_integrity_over_decrypted (st : ServerState) (dto : EncodedLoginDto)
    (pk ks : Nat) (sid : String) (now : Int) (loginData : Data)
    (hn : dto.nonce ∉ st.nonceCache)
    (hd : decryptAsymmetricData dto.toProtectedData pk = some loginData) :
    (login st dto pk ks sid now).2 = .error (.badRequest "Data integrity fault")
      ↔ micMatch dto.mic (loginMicPayload dto loginData) = false := by
  simp only [login, if_neg hn, hd]
  repeat' split
  all_goals simp_all

/-- Witness for the amended C2 at a concrete request carrying the
transmitted-fields tag. -/
theorem login_integrity_over_decrypted_witness :
    (login stEmpty dtoT 0 3 "sid1" 100).2 =
      .error (.badRequest "Data integrity fault") :=
  (login_integrity_over_decrypted stEmpty dtoT 0 3 "sid1" 100 loginData0
    (by simp [stEmpty]) rfl).mpr (by decide)

/-- Counterexample to claim C3 as stated: an unknown client id and a
wrong password produce two different errors — a not-found exception and
an unauthorized exception — so the two causes are distinguishable, not a
single undifferentiated error. -/
theorem login_auth_errors_distinct :
    (login stEmpty dto0 0 3 "sid1" 100).2 = .error (.notFound "Client not found")
    ∧ (login stWrongPw dto0 0 3 "sid1" 100).2 =
        .error (.unauthorized "Invalid credentials")
    ∧ (LoginError.notFound "Client not found" ≠
        LoginError.unauthorized "Invalid credentials") :=
  ⟨rfl, rfl, by decide⟩

/-- Claim C3 as amended: at the credential stage, an unknown client id
yields `NotFoundException "Client not found"` while a stored digest
differing from the password digest yields
`UnauthorizedException "Invalid credentials"`; the two causes produce
distinct errors. -/
theorem login_auth_error_cases (st : ServerState) (dto : EncodedLoginDto)
    (pk ks : Nat) (sid : String) (now : Int) (loginData : Data) (loginDto : LoginDto)
    (hn : dto.nonce ∉ st.nonceCache)
    (hd : decryptAsymmetricData dto.toProtectedData pk = some loginData)
    (hm : micMatch dto.mic (loginMicPayload dto loginData) = true)
    (hv : validateLogin loginData = some loginDto) :
    (st.clients.find? (fun c => decide (c.id = loginDto.clientId)) = none →
      (login st dto pk ks sid now).2 = .error (.notFound "Client not found"))
    ∧ (∀ client,
      st.clients.find? (fun c => decide (c.id = loginDto.clientId)) = some client →
      client.password ≠ secureHash (.str loginDto.password) →
      (login st dto pk ks sid now).2 = .error (.unauthorized "Invalid credentials")) := by
  simp only [login, if_neg hn, hd, hm, hv]
  constructor
  · intro hfind
    simp [hfind]
  · intro client hfind hpw
    simp [hfind, hpw]

/-- Witness for the amended C3 at a concrete unknown client id. -/
theorem login_auth_error_cases_witness :
    (login stEmpty dto0 0 3 "sid1" 100).2 = .error (.notFound "Client not found") :=
  (login_auth_error_cases stEmpty dto0 0 3 "sid1" 100 loginData0
    { clientId := "alice", password := "alicepw" }
    (by simp [stEmpty]) rfl (by decide) rfl).1 rfl

/-- Helper: a successful login prepends exactly one session, carrying the
generated symmetric key and the expiry `now + 10` minutes. -/
theorem login_ok_session (st : ServerState) (dto : EncodedLoginDto)
    (pk ks : Nat) (sid : String) (now : Int) (r : LoginResponse)
    (h : (login st dto pk ks sid now).2 = .ok r) :
    ∃ s : Session, (login st dto pk ks sid now).1.sessions = s :: st.sessions
      ∧ s.sessionKey = generateSymmetricKey ks ∧ s.expire = now + 10 := by
  revert h
  simp only [login]
  repeat' split
  all_goals intro h
  all_goals simp_all

/-- Helper: when the stored session identifiers are distinct (Mongo
object ids are unique), the prune sweep keeps exactly the sessions whose
expiry is not strictly before `now`. -/
theorem checkSessions_filter (st : ServerState) (now : Int)
    (hnd : (st.sessions.map (fun s => s.sessionId)).Nodup) :
    (checkSessions st now).sessions =
      st.sessions.filter (fun s => !decide (s.expire < now)) := by
  simp only [checkSessions]
  apply List.filter_congr
  intro s hs
  have hiff : (s.sessionId ∈
      ((st.sessions.filter (fun t => decide (t.expire < now))).map
        (fun t => t.sessionId))) ↔ s.expire < now := by
    constructor
    · intro hmem
      obtain ⟨t, ht, hts⟩ := List.mem_map.mp hmem
      obtain ⟨htl, hte⟩ := List.mem_filter.mp ht
      have hts2 : t = s := List.inj_on_of_nodup_map hnd htl hs hts
      rw [hts2] at hte
      exact of_decide_eq_true hte
    · intro hlt
      exact List.mem_map.mpr ⟨s, List.mem_filter.mpr ⟨hs, decide_eq_true hlt⟩, rfl⟩
  simp [hiff]

/-- Claim C9 — session lifecycle: a session created on handshake success
carries the freshly generated symmetric key and expiry set once to
creation time plus the fixed 10-minute TTL; the prune sweep deletes
exactly the sessions with expiry before `now` (given distinct ids); and a
session expiring at `T + 10` is still stored when pruning at `T + 9` and
gone after any prune strictly later than `T + 10`. -/
theorem session_lifecycle :
    (∀ (st : ServerState) (dto : EncodedLoginDto) (pk ks : Nat) (sid : String)
        (now : Int) (r : LoginResponse),
      (login st dto pk ks sid now).2 = .ok r →
      ∃ s : Session, (login st dto pk ks sid now).1.sessions = s :: st.sessions
        ∧ s.sessionKey = generateSymmetricKey ks ∧ s.expire = now + 10)
    ∧ (∀ (st : ServerState) (now : Int),
      (st.sessions.map (fun s => s.sessionId)).Nodup →
      (checkSessions st now).sessions =
        st.sessions.filter (fun s => !decide (s.expire < now)))
    ∧ (∀ (st : ServerState) (T : Int) (s : Session),
      (st.sessions.map (fun t => t.sessionId)).Nodup →
      s ∈ st.sessions → s.expire = T + 10 →
      s ∈ (checkSessions st (T + 9)).sessions
        ∧ ∀ now, T + 10 < now → s ∉ (checkSessions st now).sessions) := by
  refine ⟨login_ok_session, checkSessions_filter, ?_⟩
  intro st T s hnd hs he
  constructor
  · rw [checkSessions_filter st (T + 9) hnd]
    refine List.mem_filter.mpr ⟨hs, ?_⟩
    have hx : ¬(s.expire < T + 9) := by omega
    simp [hx]
  · intro now hlt
    rw [checkSessions_filter st now hnd]
    intro hmem
    obtain ⟨hm1, hm2⟩ := List.mem_filter.mp hmem
    simp [he] at hm2
    omega

/-- Witness for C9: a session created at 100 (expiry 110) survives the
prune at 109 and is gone after the prune at 111. -/
theorem session_lifecycle_witness :
    sessionNine ∈ (checkSessions stNine 109).sessions
    ∧ sessionNine ∉ (checkSessions stNine 111).sessions :=
  have h := session_lifecycle.2.2 stNine 100 sessionNine (by simp [stNine])
    (by simp [stNine]) rfl
  ⟨h.1, h.2 111 (by omega)⟩

/-- Counterexample to claim C1 as stated: constructing the service does
write the private half of the keypair to a file — the write of
`server_private.pem` with the PKCS8 PEM export of the private key is
among the constructor's file writes. -/
theorem constructor_writes_private_key :
    { path := "keys/server_private.pem"
    , content := exportPrivateKeyPem (generateAsymmetricKeys 0) } ∈
      (clientServiceConstructor "keys" 0).writes := by
  decide

/-- Claim C1 as amended: at startup the constructor generates one
keypair, keeps the private half in the service field, and serializes
both halves, writing the public key to `KEYS_PATH/server_public.pem` and
the private key to `KEYS_PATH/server_private.pem`. -/
theorem clientServiceConstructor_exports_both_halves
    (keysPath : String) (seed : Nat) :
    clientServiceConstructor keysPath seed =
      { privateKey := (generateAsymmetricKeys seed).privateKey
      , writes :=
          [ { path := keysPath ++ "/server_public.pem"
            , content := exportPublicKeyPem (generateAsymmetricKeys seed) }
          , { path := keysPath ++ "/server_private.pem"
            , content := exportPrivateKeyPem (generateAsymmetricKeys seed) } ] } := rfl
